import Mathlib

set_option autoImplicit false
set_option linter.unusedVariables false

/-!
Verification of the jik core (layer contract, dropout layer, eltwise-mult layer,
solver training loop) against a shallow embedding of `src/core/layer_dropout.h`,
`src/core/layer_eltwise_mult.h` and `src/core/solver.h`.

The numeric type `Dtype` (float/double in the source) is modelled by the exact
rationals; machine epsilon `std::numeric_limits<Dtype>::epsilon()` becomes an
explicit parameter `eps`. The per-element uniform draws of the dropout layer's
`dist(gen)` become an explicit sequence `draws : Nat -> Dtype`, one value per call.
-/

namespace jik

/-- Execution phase, from the `State` structure consumed by every layer
(train vs. inference). -/
inductive Phase
  | PHASE_TRAIN
  | PHASE_TEST
  deriving DecidableEq

/-- Runtime state passed to `Forward`/`Backward`; only the phase is relevant to
the layers in scope. -/
structure State where
  phase : Phase
  deriving DecidableEq

/-- Numeric type `Dtype`, modelled by the exact rationals. -/
abbrev Dtype := ℚ

/-- Tensor `Mat<Dtype>`: shape descriptor `size`, value buffer `data` and gradient
buffer `deriv` (the mat type itself is an external collaborator; its buffers are
modelled as lists of rationals). -/
structure Mat where
  size : List ℕ
  data : List Dtype
  deriv : List Dtype
  deriving DecidableEq

/-- Default tensor used for out-of-range vector accesses in the embedding. -/
def matDefault : Mat := { size := [], data := [], deriv := [] }

/-- Modelled from the spec: the `Mat` constructor (mat.h is not under src/)
allocates `data` and `deriv` buffers holding the shape's element count,
zero-initialized (spec: "allocate `weight_prev_` with matching shapes,
zero-initialized"; dropout constructor comment: "Create the mask and initialize
it to 0"). Both `Mat(size)` and `Mat(size, false)` map to this. -/
def matNew (size : List ℕ) : Mat :=
  { size := size
    data := List.replicate size.prod 0
    deriv := List.replicate size.prod 0 }

/-- Mat::Size(): number of elements of the value buffer. -/
def Mat.Size (m : Mat) : ℕ := m.data.length

/-- LayerDropout state: drop probability `drop_prob_`, internal mask `mask_`, the
single input tensor `in_[0]` (a shared tensor, modelled in place as `in0`) and the
single output tensor `out_[0]` (`out0`). -/
structure LayerDropout where
  drop_prob_ : Dtype
  mask_ : Mat
  in0 : Mat
  out0 : Mat
  deriving DecidableEq

/-- LayerDropout::Forward. `eps` is `std::numeric_limits<Dtype>::epsilon()` and
`draws i` the value of the i-th call of `dist(gen)` in the stochastic branch.
`Mat::Set` and `Mat::Zero` (mat.h not under src/) are modelled from the spec as
setting every element of the value buffer ("mask set uniformly to 1",
"output and mask are zeroed"). -/
def LayerDropout.Forward (L : LayerDropout) (eps : Dtype) (state : State)
    (draws : ℕ → Dtype) : LayerDropout :=
  if state.phase ≠ Phase.PHASE_TRAIN then
    -- Dropout only during the training phase
    { L with out0 := { L.out0 with data := L.in0.data } }
  else if L.drop_prob_ < eps then
    -- Nothing to drop: just copy the input to the output
    { L with out0 := { L.out0 with data := L.in0.data },
             mask_ := { L.mask_ with data := List.replicate L.mask_.Size 1 } }
  else if L.drop_prob_ > 1 - eps then
    -- Drop everything: zero out the data
    { L with out0 := { L.out0 with data := List.replicate L.out0.Size 0 },
             mask_ := { L.mask_ with data := List.replicate L.mask_.Size 0 } }
  else
    let scale : Dtype := 1 / (1 - L.drop_prob_)
    let mask_data : List Dtype :=
      (List.range L.mask_.Size).map fun i =>
        if draws i < L.drop_prob_ then 0 else scale
    let out_data : List Dtype :=
      (List.range L.out0.Size).map fun i =>
        mask_data.getD i 0 * L.in0.data.getD i 0
    { L with
      mask_ := { L.mask_ with data := mask_data },
      out0 := { L.out0 with data := out_data } }

/-- LayerDropout::Backward: accumulates `mask.data[i] * out.deriv[i]` into
`in.deriv[i]` and `in.data[i] * out.deriv[i]` into `mask.deriv[i]` over the
`out_[0]->Size()` loop bound; positions beyond the bound are untouched. The
`state` argument is unused, as in the source. -/
def LayerDropout.Backward (L : LayerDropout) (state : State) : LayerDropout :=
  let _ := state
  let n := L.out0.Size
  let in_deriv : List Dtype :=
    (List.range L.in0.deriv.length).map fun i =>
      if i < n then
        L.in0.deriv.getD i 0 + L.mask_.data.getD i 0 * L.out0.deriv.getD i 0
      else L.in0.deriv.getD i 0
  let mask_deriv : List Dtype :=
    (List.range L.mask_.deriv.length).map fun i =>
      if i < n then
        L.mask_.deriv.getD i 0 + L.in0.data.getD i 0 * L.out0.deriv.getD i 0
      else L.mask_.deriv.getD i 0
  { L with
    in0 := { L.in0 with deriv := in_deriv },
    mask_ := { L.mask_ with deriv := mask_deriv } }

/-- LayerEltwiseMult state: the two input tensors `in_[0]`, `in_[1]` (modelled in
place as `in0`, `in1`) and the output tensor `out_[0]` (`out0`). -/
structure LayerEltwiseMult where
  in0 : Mat
  in1 : Mat
  out0 : Mat
  deriving DecidableEq

/-- LayerEltwiseMult constructor: the two terminating `Check` calls are modelled
as an `Except` value carrying the failure message (a `Check` failure reports and
halts the process). On success, one output is allocated with the first input's
shape. -/
def LayerEltwiseMult.construct (name : String) (ins : List Mat) :
    Except String LayerEltwiseMult :=
  if ¬ (ins.length = 2) then
    Except.error ("Layer '" ++ name ++ "' must have 2 inputs")
  else if ¬ ((ins.getD 0 matDefault).Size = (ins.getD 1 matDefault).Size) then
    Except.error ("Layer '" ++ name ++ "' inputs must have the same size")
  else
    Except.ok
      { in0 := ins.getD 0 matDefault
        in1 := ins.getD 1 matDefault
        out0 := matNew (ins.getD 0 matDefault).size }

/-- LayerEltwiseMult::Forward: `out[i] = in1[i] * in2[i]` over `out_[0]->Size()`.
The `state` argument is unused, as in the source. -/
def LayerEltwiseMult.Forward (L : LayerEltwiseMult) (state : State) :
    LayerEltwiseMult :=
  let _ := state
  let out_data : List Dtype :=
    (List.range L.out0.Size).map fun i =>
      L.in0.data.getD i 0 * L.in1.data.getD i 0
  { L with out0 := { L.out0 with data := out_data } }

/-- LayerEltwiseMult::Backward: accumulates `in2[i] * out.deriv[i]` into
`in1.deriv[i]` and `in1[i] * out.deriv[i]` into `in2.deriv[i]` over the
`out_[0]->Size()` loop bound; positions beyond the bound are untouched. -/
def LayerEltwiseMult.Backward (L : LayerEltwiseMult) (state : State) :
    LayerEltwiseMult :=
  let _ := state
  let n := L.out0.Size
  let in1_deriv : List Dtype :=
    (List.range L.in0.deriv.length).map fun i =>
      if i < n then
        L.in0.deriv.getD i 0 + L.in1.data.getD i 0 * L.out0.deriv.getD i 0
      else L.in0.deriv.getD i 0
  let in2_deriv : List Dtype :=
    (List.range L.in1.deriv.length).map fun i =>
      if i < n then
        L.in1.deriv.getD i 0 + L.in0.data.getD i 0 * L.out0.deriv.getD i 0
      else L.in1.deriv.getD i 0
  { L with
    in0 := { L.in0 with deriv := in1_deriv },
    in1 := { L.in1 with deriv := in2_deriv } }

/-- Swap the two inputs of an eltwise-mult layer (used to state the gradient
symmetry property). -/
def LayerEltwiseMult.swapInputs (L : LayerEltwiseMult) : LayerEltwiseMult :=
  { L with in0 := L.in1, in1 := L.in0 }

/-- Sample dropout layer: input [1,2,3,4], drop probability 1/2, fresh buffers. -/
def sampleDropout : LayerDropout :=
  { drop_prob_ := 1/2
    mask_ := { size := [4], data := [0, 0, 0, 0], deriv := [0, 0, 0, 0] }
    in0 := { size := [4], data := [1, 2, 3, 4], deriv := [0, 0, 0, 0] }
    out0 := { size := [4], data := [0, 0, 0, 0], deriv := [1, 1, 1, 1] } }

/-- Sample dropout layer with drop probability 0 (pass-through branch). -/
def sampleDropout0 : LayerDropout :=
  { sampleDropout with drop_prob_ := 0 }

/-- Sample dropout layer after a mask realization keeping elements 0 and 2. -/
def sampleDropoutMasked : LayerDropout :=
  { drop_prob_ := 1/2
    mask_ := { size := [4], data := [2, 0, 2, 0], deriv := [0, 0, 0, 0] }
    in0 := { size := [4], data := [1, 2, 3, 4], deriv := [0, 0, 0, 0] }
    out0 := { size := [4], data := [2, 0, 6, 0], deriv := [1, 1, 1, 1] } }

/-- Sample draw sequence keeping even positions and dropping odd ones at p = 1/2. -/
def sampleDraws : ℕ → Dtype := fun i => if i % 2 = 0 then 3/4 else 1/4

/-- Sample input tensors for the eltwise-mult layer. -/
def sampleA : Mat := { size := [2], data := [2, 3], deriv := [0, 0] }

/-- Second sample input tensor for the eltwise-mult layer. -/
def sampleB : Mat := { size := [2], data := [5, 7], deriv := [0, 0] }

/-- Sample eltwise-mult layer over `sampleA` and `sampleB`. -/
def sampleEl : LayerEltwiseMult :=
  { in0 := sampleA
    in1 := sampleB
    out0 := { size := [2], data := [0, 0], deriv := [1, 1] } }

/-- Observable events of a solver run: the model collaborator's operations and the
periodic reports. The print report becomes `printFire`, the `Test()` call and its
report become `testFire`, a `Save()` attempt becomes `saveFire`, the
learning-rate report becomes `lrFire`; their first argument is the 1-based step
number `step + 1` the source prints. `trainCall`/`learnCall` record the
`model->Train()` and `Learn(model, learning_rate)` invocations with the 0-based
loop index (`Learn` is an abstract virtual whose effect is outside this scope). -/
inductive Event
  | reportError (msg : String)
  | trainCall (step : ℕ) (loss : Dtype)
  | learnCall (step : ℕ) (learning_rate : Dtype)
  | printFire (step : ℕ) (learning_rate loss : Dtype)
  | testFire (step : ℕ) (accuracy : Dtype)
  | saveFire (step : ℕ) (file_name : String)
  | lrFire (step : ℕ) (lr_old lr_new : Dtype)
  deriving DecidableEq

/-- Model collaborator (core/model.h is out of scope): its observable behavior is
given by oracles indexed by the 0-based step at which the call happens.
`weights` is what `GetWeight` writes, `lossAt k` what `Train()` returns at step
k, `accuracyAt k` what `Test()` returns, `saveOkAt k` whether `Save(...)`
succeeds at step k. -/
structure Model where
  name : String
  weights : List Mat
  lossAt : ℕ → Dtype
  accuracyAt : ℕ → Dtype
  saveOkAt : ℕ → Bool

/-- Checkpoint file name built by the solver: `<model-name>_<step+1>.model`. -/
def saveFileName (m : Model) (step : ℕ) : String :=
  m.name ++ "_" ++ toString (step + 1) ++ ".model"

/-- Solver state: the two weight-snapshot lists and the four cadences plus the
learning-rate scale, as in the class attributes. -/
structure Solver where
  weight_ : List Mat
  weight_prev_ : List Mat
  print_each_ : ℕ
  test_each_ : ℕ
  save_each_ : ℕ
  lr_scale_each_ : ℕ
  lr_scale_ : Dtype
  deriving DecidableEq

/-- Solver::Train's step loop. `fuel` counts the remaining iterations, so the
loop guard `step < num_step` becomes `fuel > 0` with `step + fuel = num_step`
maintained by the caller; `print`, `test`, `save`, `lr` are the four counter
locals at the top of the iteration. Each counter is pre-incremented, compared
against its cadence (with the `step == num_step - 1` exception for print, test
and save but not for the learning-rate counter) and reset to 0 when it fires.
A failed `Save` returns false immediately, mid-iteration. Returns the loop's
outcome and the emitted events. -/
def trainLoop (m : Model) (print_each test_each save_each lr_scale_each : ℕ)
    (lr_scale : Dtype) (num_step : ℕ) :
    ℕ → ℕ → ℕ → ℕ → ℕ → ℕ → Dtype → Bool × List Event
  | 0, _, _, _, _, _, _ => (true, [])
  | fuel + 1, step, print, test, save, lr, learning_rate =>
    let loss := m.lossAt step
    let printFired := print_each ≤ print + 1 ∨ step = num_step - 1
    let print1 : ℕ := if printFired then 0 else print + 1
    let pEvs : List Event :=
      if printFired then [Event.printFire (step + 1) learning_rate loss] else []
    let testFired := test_each ≤ test + 1 ∨ step = num_step - 1
    let test1 : ℕ := if testFired then 0 else test + 1
    let tEvs : List Event :=
      if testFired then [Event.testFire (step + 1) (m.accuracyAt step)] else []
    let saveFired := save_each ≤ save + 1 ∨ step = num_step - 1
    if saveFired ∧ m.saveOkAt step = false then
      (false, Event.trainCall step loss :: Event.learnCall step learning_rate ::
        (pEvs ++ tEvs ++ [Event.saveFire (step + 1) (saveFileName m step)]))
    else
      let save1 : ℕ := if saveFired then 0 else save + 1
      let sEvs : List Event :=
        if saveFired then [Event.saveFire (step + 1) (saveFileName m step)] else []
      let lrFired := lr_scale_each ≤ lr + 1
      let lr1 : ℕ := if lrFired then 0 else lr + 1
      let lEvs : List Event :=
        if lrFired then
          [Event.lrFire (step + 1) learning_rate (learning_rate * lr_scale)]
        else []
      let learning_rate1 :=
        if lrFired then learning_rate * lr_scale else learning_rate
      let rest := trainLoop m print_each test_each save_each lr_scale_each
        lr_scale num_step fuel (step + 1) print1 test1 save1 lr1 learning_rate1
      (rest.1, Event.trainCall step loss :: Event.learnCall step learning_rate ::
        (pEvs ++ tEvs ++ sEvs ++ lEvs ++ rest.2))

/-- Snapshot setup at the start of Solver::Train: `weight_` is cleared and
re-fetched via `GetWeight`, then `weight_prev_` is resized to the same length
with a fresh `Mat(weight_[i]->size, false)` per entry. -/
def Solver.trainSetup (m : Model) : List Mat × List Mat :=
  (m.weights, m.weights.map fun w => matNew w.size)

/-- Solver::Train. A null model pointer is `none`; `Report(kError, "Invalid
model")` is modelled from the spec (log.cpp is not under src/) as emitting the
error event after which Train returns false. Returns the solver state at return,
the success flag and the event trace. On loop success `weight_` and
`weight_prev_` are cleared; on a failed save the function returns mid-loop with
the snapshots still in place. -/
def Solver.Train (s : Solver) (model : Option Model) (num_step : ℕ)
    (learning_rate : Dtype) : Solver × Bool × List Event :=
  match model with
  | none => (s, false, [Event.reportError "Invalid model"])
  | some m =>
    let setup := Solver.trainSetup m
    let s1 := { s with weight_ := setup.1, weight_prev_ := setup.2 }
    let r := trainLoop m s.print_each_ s.test_each_ s.save_each_ s.lr_scale_each_
      s.lr_scale_ num_step num_step 0 0 0 0 0 learning_rate
    if r.1 then
      ({ s1 with weight_ := [], weight_prev_ := [] }, true, r.2)
    else
      (s1, false, r.2)

/-- Holds when an event is a print report for 1-based step `j`. -/
def isPrintFireAt (j : ℕ) : Event → Prop
  | Event.printFire s _ _ => s = j
  | _ => False

/-- Holds when an event is a test report for 1-based step `j`. -/
def isTestFireAt (j : ℕ) : Event → Prop
  | Event.testFire s _ => s = j
  | _ => False

/-- Holds when an event is a learning-rate decay report for 1-based step `j`. -/
def isLrFireAt (j : ℕ) : Event → Prop
  | Event.lrFire s _ _ => s = j
  | _ => False

/-- The trace contains a print report for 1-based step `j`. -/
def firesPrint (tr : List Event) (j : ℕ) : Prop := ∃ e ∈ tr, isPrintFireAt j e

/-- The trace contains a test report for 1-based step `j`. -/
def firesTest (tr : List Event) (j : ℕ) : Prop := ∃ e ∈ tr, isTestFireAt j e

/-- The trace contains a learning-rate decay for 1-based step `j`. -/
def firesLr (tr : List Event) (j : ℕ) : Prop := ∃ e ∈ tr, isLrFireAt j e

/-- Sample model: one 2-element weight, constant loss and accuracy, saves always
succeed. -/
def sampleModel : Model :=
  { name := "net"
    weights := [sampleA]
    lossAt := fun _ => 1/2
    accuracyAt := fun _ => 1
    saveOkAt := fun _ => true }

/-- Sample model whose checkpoint save always fails. -/
def sampleModelBadSave : Model :=
  { sampleModel with saveOkAt := fun _ => false }

/-- Sample solver: every cadence 1, learning-rate scale 1/2, no snapshots held. -/
def sampleSolver : Solver :=
  { weight_ := []
    weight_prev_ := []
    print_each_ := 1
    test_each_ := 1
    save_each_ := 1
    lr_scale_each_ := 1
    lr_scale_ := 1/2 }

/-- Reading position `i` of a table built from `List.range m` under a map. -/
lemma getD_range_map (f : ℕ → Dtype) {m i : ℕ} (h : i < m) :
    ((List.range m).map f).getD i 0 = f i := by
  rw [List.getD_eq_getElem?_getD, List.getElem?_map, List.getElem?_range h]
  rfl

/-- Reading past the end of a table built from `List.range m` under a map. -/
lemma getD_range_map_ge (f : ℕ → Dtype) {m i : ℕ} (h : ¬ i < m) :
    ((List.range m).map f).getD i 0 = 0 := by
  rw [List.getD_eq_getElem?_getD, List.getElem?_eq_none]
  · rfl
  · simpa using Nat.le_of_not_lt h

/-- C3: dropout Forward in the training phase with `eps ≤ p ≤ 1 - eps` takes the
stochastic branch: element `i` of the mask is set to `1/(1-p)` when its draw is
`≥ p` and to `0` otherwise, and every output element equals `mask[i] * input[i]`. -/
theorem dropout_forward_stochastic (L : LayerDropout) (eps : Dtype)
    (draws : ℕ → Dtype) (h1 : eps ≤ L.drop_prob_) (h2 : L.drop_prob_ ≤ 1 - eps) :
    (∀ i, i < L.mask_.Size →
      (L.Forward eps { phase := Phase.PHASE_TRAIN } draws).mask_.data.getD i 0 =
        if L.drop_prob_ ≤ draws i then 1 / (1 - L.drop_prob_) else 0) ∧
    (∀ i, i < L.out0.Size →
      (L.Forward eps { phase := Phase.PHASE_TRAIN } draws).out0.data.getD i 0 =
        (L.Forward eps { phase := Phase.PHASE_TRAIN } draws).mask_.data.getD i 0 *
          L.in0.data.getD i 0) := by
  have hb1 : ¬ (L.drop_prob_ < eps) := not_lt.mpr h1
  have hb2 : ¬ (L.drop_prob_ > 1 - eps) := not_lt.mpr h2
  unfold LayerDropout.Forward
  rw [if_neg (by simp), if_neg hb1, if_neg hb2]
  dsimp only
  refine ⟨fun i hi => ?_, fun i hi => ?_⟩
  · rw [getD_range_map _ hi]
    rcases lt_or_le (draws i) L.drop_prob_ with h | h
    · rw [if_pos h, if_neg (not_le.mpr h)]
    · rw [if_neg (not_lt.mpr h), if_pos h]
  · exact getD_range_map _ hi

/-- C3 witness: the stochastic-branch mask formula evaluated at element 0 of the
sample layer (p = 1/2, draw 3/4). -/
theorem dropout_forward_stochastic_witness :
    (sampleDropout.Forward (1/1024) { phase := Phase.PHASE_TRAIN }
        sampleDraws).mask_.data.getD 0 0 =
      if sampleDropout.drop_prob_ ≤ sampleDraws 0 then
        1 / (1 - sampleDropout.drop_prob_) else 0 :=
  (dropout_forward_stochastic sampleDropout (1/1024) sampleDraws
    (by norm_num [sampleDropout]) (by norm_num [sampleDropout])).1 0 (by decide)

/-- C4: dropout Backward, for any phase and any current layer state (hence
regardless of which forward branch last ran), adds `mask.data[i] * out.deriv[i]`
onto the previously accumulated `in.deriv[i]` and `in.data[i] * out.deriv[i]`
onto the previously accumulated `mask.deriv[i]`. -/
theorem dropout_backward_accumulates (L : LayerDropout) (state : State) (i : ℕ)
    (hi : i < L.in0.deriv.length) (hm : i < L.mask_.deriv.length)
    (hn : i < L.out0.Size) :
    ((L.Backward state).in0.deriv.getD i 0 =
      L.in0.deriv.getD i 0 + L.mask_.data.getD i 0 * L.out0.deriv.getD i 0) ∧
    ((L.Backward state).mask_.deriv.getD i 0 =
      L.mask_.deriv.getD i 0 + L.in0.data.getD i 0 * L.out0.deriv.getD i 0) := by
  unfold LayerDropout.Backward
  dsimp only
  constructor
  · rw [getD_range_map _ hi, if_pos hn]
  · rw [getD_range_map _ hm, if_pos hn]

/-- C4 witness: backward accumulation evaluated at element 0 of the sample layer
with mask [2,0,2,0] and output derivative [1,1,1,1]. -/
theorem dropout_backward_accumulates_witness :
    ((sampleDropoutMasked.Backward { phase := Phase.PHASE_TRAIN }).in0.deriv.getD 0 0 =
      sampleDropoutMasked.in0.deriv.getD 0 0 +
        sampleDropoutMasked.mask_.data.getD 0 0 *
          sampleDropoutMasked.out0.deriv.getD 0 0) ∧
    ((sampleDropoutMasked.Backward { phase := Phase.PHASE_TRAIN }).mask_.deriv.getD 0 0 =
      sampleDropoutMasked.mask_.deriv.getD 0 0 +
        sampleDropoutMasked.in0.data.getD 0 0 *
          sampleDropoutMasked.out0.deriv.getD 0 0) :=
  dropout_backward_accumulates sampleDropoutMasked { phase := Phase.PHASE_TRAIN } 0
    (by decide) (by decide) (by decide)

/-- C5: eltwise-mult Forward multiplies the two equal-size inputs element-wise;
Backward accumulates `in2[i] * out.deriv[i]` onto `in1.deriv[i]` and
`in1[i] * out.deriv[i]` onto `in2.deriv[i]`; swapping the two inputs swaps the two
gradient outputs; and both passes are independent of the phase. -/
theorem eltwise_mult_spec (L : LayerEltwiseMult) (state : State)
    (hlen : L.in0.data.length = L.in1.data.length) :
    (∀ i, i < L.out0.Size →
      (L.Forward state).out0.data.getD i 0 =
        L.in0.data.getD i 0 * L.in1.data.getD i 0) ∧
    (∀ i, i < L.in0.deriv.length → i < L.out0.Size →
      (L.Backward state).in0.deriv.getD i 0 =
        L.in0.deriv.getD i 0 + L.in1.data.getD i 0 * L.out0.deriv.getD i 0) ∧
    (∀ i, i < L.in1.deriv.length → i < L.out0.Size →
      (L.Backward state).in1.deriv.getD i 0 =
        L.in1.deriv.getD i 0 + L.in0.data.getD i 0 * L.out0.deriv.getD i 0) ∧
    (L.swapInputs.Backward state = (L.Backward state).swapInputs) ∧
    (∀ s2 : State, L.Forward state = L.Forward s2 ∧ L.Backward state = L.Backward s2) := by
  refine ⟨fun i hi => ?_, fun i hi hn => ?_, fun i hi hn => ?_, rfl, fun s2 => ⟨rfl, rfl⟩⟩
  · unfold LayerEltwiseMult.Forward
    dsimp only
    exact getD_range_map _ hi
  · unfold LayerEltwiseMult.Backward
    dsimp only
    rw [getD_range_map _ hi, if_pos hn]
  · unfold LayerEltwiseMult.Backward
    dsimp only
    rw [getD_range_map _ hi, if_pos hn]

/-- C5 witness: forward and backward formulas evaluated at element 0 of the
sample layer a = [2,3], b = [5,7], out.deriv = [1,1]. -/
theorem eltwise_mult_spec_witness :
    (sampleEl.Forward { phase := Phase.PHASE_TRAIN }).out0.data.getD 0 0 =
      sampleEl.in0.data.getD 0 0 * sampleEl.in1.data.getD 0 0 :=
  (eltwise_mult_spec sampleEl { phase := Phase.PHASE_TRAIN } (by decide)).1 0 (by decide)

/-- C6: dropout Forward in the training phase with `p < eps` copies the input to
the output and sets every mask element to 1; with `p > 1 - eps` it zeroes every
output and mask element. (`eps ≤ 1/2` holds for the machine epsilon the source
compares against and keeps the two boundary branches disjoint.) -/
theorem dropout_forward_boundary (L : LayerDropout) (eps : Dtype)
    (draws : ℕ → Dtype) (heps : eps ≤ 1/2) :
    (L.drop_prob_ < eps →
      (L.Forward eps { phase := Phase.PHASE_TRAIN } draws).out0.data = L.in0.data ∧
      (L.Forward eps { phase := Phase.PHASE_TRAIN } draws).mask_.data =
        List.replicate L.mask_.Size 1) ∧
    (L.drop_prob_ > 1 - eps →
      (L.Forward eps { phase := Phase.PHASE_TRAIN } draws).out0.data =
        List.replicate L.out0.Size 0 ∧
      (L.Forward eps { phase := Phase.PHASE_TRAIN } draws).mask_.data =
        List.replicate L.mask_.Size 0) := by
  constructor
  · intro h
    unfold LayerDropout.Forward
    rw [if_neg (by simp), if_pos h]
    exact ⟨rfl, rfl⟩
  · intro h
    have hb1 : ¬ (L.drop_prob_ < eps) := not_lt.mpr (by linarith)
    unfold LayerDropout.Forward
    rw [if_neg (by simp), if_neg hb1, if_pos h]
    exact ⟨rfl, rfl⟩

/-- C6 witness: the p < eps branch evaluated on the sample layer with p = 0. -/
theorem dropout_forward_boundary_witness :
    (sampleDropout0.Forward (1/1024) { phase := Phase.PHASE_TRAIN }
        sampleDraws).out0.data = sampleDropout0.in0.data ∧
    (sampleDropout0.Forward (1/1024) { phase := Phase.PHASE_TRAIN }
        sampleDraws).mask_.data = List.replicate sampleDropout0.mask_.Size 1 :=
  (dropout_forward_boundary sampleDropout0 (1/1024) sampleDraws (by norm_num)).1
    (by norm_num [sampleDropout0, sampleDropout])

/-- C7: dropout Forward outside the training phase copies the input to the output
and leaves the mask (data and deriv), the input tensor and the output derivative
buffer untouched, for every drop probability and draw sequence. -/
theorem dropout_forward_inference (L : LayerDropout) (eps : Dtype)
    (draws : ℕ → Dtype) (state : State) (h : state.phase ≠ Phase.PHASE_TRAIN) :
    (L.Forward eps state draws).out0.data = L.in0.data ∧
    (L.Forward eps state draws).mask_ = L.mask_ ∧
    (L.Forward eps state draws).in0 = L.in0 ∧
    (L.Forward eps state draws).out0.deriv = L.out0.deriv := by
  unfold LayerDropout.Forward
  rw [if_pos h]
  exact ⟨rfl, rfl, rfl, rfl⟩

/-- C7 witness: inference-phase pass-through evaluated on the sample layer. -/
theorem dropout_forward_inference_witness :
    (sampleDropout.Forward (1/1024) { phase := Phase.PHASE_TEST }
        sampleDraws).out0.data = sampleDropout.in0.data ∧
    (sampleDropout.Forward (1/1024) { phase := Phase.PHASE_TEST }
        sampleDraws).mask_ = sampleDropout.mask_ ∧
    (sampleDropout.Forward (1/1024) { phase := Phase.PHASE_TEST }
        sampleDraws).in0 = sampleDropout.in0 ∧
    (sampleDropout.Forward (1/1024) { phase := Phase.PHASE_TEST }
        sampleDraws).out0.deriv = sampleDropout.out0.deriv :=
  dropout_forward_inference sampleDropout (1/1024) sampleDraws
    { phase := Phase.PHASE_TEST } (by decide)

/-- C9: eltwise-mult construction succeeds exactly when given 2 inputs of equal
element count (otherwise the terminating check fails), and on success stores the
two inputs and allocates one output with the first input's shape. -/
theorem eltwise_construct_spec (name : String) (ins : List Mat) :
    ((∃ L, LayerEltwiseMult.construct name ins = Except.ok L) ↔
      (ins.length = 2 ∧ (ins.getD 0 matDefault).Size = (ins.getD 1 matDefault).Size)) ∧
    (∀ L, LayerEltwiseMult.construct name ins = Except.ok L →
      L.in0 = ins.getD 0 matDefault ∧ L.in1 = ins.getD 1 matDefault ∧
      L.out0 = matNew (ins.getD 0 matDefault).size) := by
  by_cases h1 : ins.length = 2
  · by_cases h2 : (ins.getD 0 matDefault).Size = (ins.getD 1 matDefault).Size
    · have hc : LayerEltwiseMult.construct name ins = Except.ok
          { in0 := ins.getD 0 matDefault
            in1 := ins.getD 1 matDefault
            out0 := matNew (ins.getD 0 matDefault).size } := by
        unfold LayerEltwiseMult.construct
        rw [if_neg (not_not_intro h1), if_neg (not_not_intro h2)]
      refine ⟨⟨fun _ => ⟨h1, h2⟩, fun _ => ⟨_, hc⟩⟩, fun L hL => ?_⟩
      rw [hc] at hL
      injection hL with hL
      rw [← hL]
      exact ⟨rfl, rfl, rfl⟩
    · have hc : LayerEltwiseMult.construct name ins =
          Except.error ("Layer '" ++ name ++ "' inputs must have the same size") := by
        unfold LayerEltwiseMult.construct
        rw [if_neg (not_not_intro h1), if_pos h2]
      refine ⟨⟨fun hex => ?_, fun hand => absurd hand.2 h2⟩, fun L hL => ?_⟩
      · obtain ⟨L, hL⟩ := hex
        rw [hc] at hL
        exact absurd hL (by simp)
      · rw [hc] at hL
        exact absurd hL (by simp)
  · have hc : LayerEltwiseMult.construct name ins =
        Except.error ("Layer '" ++ name ++ "' must have 2 inputs") := by
      unfold LayerEltwiseMult.construct
      rw [if_pos h1]
    refine ⟨⟨fun hex => ?_, fun hand => absurd hand.1 h1⟩, fun L hL => ?_⟩
    · obtain ⟨L, hL⟩ := hex
      rw [hc] at hL
      exact absurd hL (by simp)
    · rw [hc] at hL
      exact absurd hL (by simp)

/-- C9 witness: construction over two equal-size inputs succeeds with the expected
fields. -/
theorem eltwise_construct_spec_witness :
    ({ in0 := sampleA, in1 := sampleB, out0 := matNew sampleA.size } :
        LayerEltwiseMult).in0 = [sampleA, sampleB].getD 0 matDefault ∧
    ({ in0 := sampleA, in1 := sampleB, out0 := matNew sampleA.size } :
        LayerEltwiseMult).in1 = [sampleA, sampleB].getD 1 matDefault ∧
    ({ in0 := sampleA, in1 := sampleB, out0 := matNew sampleA.size } :
        LayerEltwiseMult).out0 = matNew ([sampleA, sampleB].getD 0 matDefault).size :=
  (eltwise_construct_spec "prod" [sampleA, sampleB]).2
    { in0 := sampleA, in1 := sampleB, out0 := matNew sampleA.size } rfl

/-- Reading position `i` of a mapped list of tensors. -/
lemma getD_map_mat (f : Mat → Mat) (l : List Mat) {i : ℕ} (h : i < l.length) :
    (l.map f).getD i matDefault = f (l.getD i matDefault) := by
  rw [List.getD_eq_getElem?_getD, List.getElem?_map, List.getElem?_eq_getElem h,
    List.getD_eq_getElem?_getD, List.getElem?_eq_getElem h]
  rfl

/-- C10: Train with a null model reports the single "Invalid model" error and
returns failure, leaving the entire solver state — including any stale
`weight_`/`weight_prev_` contents — exactly as it was, with no model call,
counter activity or further report. -/
theorem train_null_model (s : Solver) (num_step : ℕ) (learning_rate : Dtype) :
    s.Train none num_step learning_rate =
      (s, false, [Event.reportError "Invalid model"]) := rfl

/-- C8: at the start of Train with a non-null model, `weight_` is re-fetched from
the model and `weight_prev_` is allocated with the same length, entry `i` having
the shape of weight `i` and zero-initialized `data` and `deriv` buffers. -/
theorem train_setup_snapshot (m : Model) (i : ℕ)
    (hi : i < (Solver.trainSetup m).1.length) :
    (Solver.trainSetup m).1 = m.weights ∧
    (Solver.trainSetup m).2.length = (Solver.trainSetup m).1.length ∧
    ((Solver.trainSetup m).2.getD i matDefault).size =
      ((Solver.trainSetup m).1.getD i matDefault).size ∧
    ((Solver.trainSetup m).2.getD i matDefault).data =
      List.replicate ((Solver.trainSetup m).1.getD i matDefault).size.prod 0 ∧
    ((Solver.trainSetup m).2.getD i matDefault).deriv =
      List.replicate ((Solver.trainSetup m).1.getD i matDefault).size.prod 0 := by
  have hi' : i < m.weights.length := hi
  refine ⟨rfl, by simp [Solver.trainSetup], ?_, ?_, ?_⟩
  · show ((m.weights.map fun w => matNew w.size).getD i matDefault).size = _
    rw [getD_map_mat _ _ hi']
    rfl
  · show ((m.weights.map fun w => matNew w.size).getD i matDefault).data = _
    rw [getD_map_mat _ _ hi']
    rfl
  · show ((m.weights.map fun w => matNew w.size).getD i matDefault).deriv = _
    rw [getD_map_mat _ _ hi']
    rfl

/-- C8 witness: snapshot setup evaluated on the sample model's only weight. -/
theorem train_setup_snapshot_witness :
    (Solver.trainSetup sampleModel).1 = sampleModel.weights ∧
    (Solver.trainSetup sampleModel).2.length =
      (Solver.trainSetup sampleModel).1.length ∧
    ((Solver.trainSetup sampleModel).2.getD 0 matDefault).size =
      ((Solver.trainSetup sampleModel).1.getD 0 matDefault).size ∧
    ((Solver.trainSetup sampleModel).2.getD 0 matDefault).data =
      List.replicate
        ((Solver.trainSetup sampleModel).1.getD 0 matDefault).size.prod 0 ∧
    ((Solver.trainSetup sampleModel).2.getD 0 matDefault).deriv =
      List.replicate
        ((Solver.trainSetup sampleModel).1.getD 0 matDefault).size.prod 0 :=
  train_setup_snapshot sampleModel 0 (by decide)

/-- C2 (amended): after Train with a non-null model, `weight_` and `weight_prev_`
are cleared when the run completed (success); a run aborted by a failed
checkpoint save returns failure with both lists still holding the run's
snapshots. -/
theorem train_teardown (s : Solver) (m : Model) (num_step : ℕ)
    (learning_rate : Dtype) :
    ((s.Train (some m) num_step learning_rate).2.1 = true →
      (s.Train (some m) num_step learning_rate).1.weight_ = [] ∧
      (s.Train (some m) num_step learning_rate).1.weight_prev_ = []) ∧
    ((s.Train (some m) num_step learning_rate).2.1 = false →
      (s.Train (some m) num_step learning_rate).1.weight_ = m.weights ∧
      (s.Train (some m) num_step learning_rate).1.weight_prev_ =
        (m.weights.map fun w => matNew w.size)) := by
  unfold Solver.Train
  dsimp only
  by_cases h : (trainLoop m s.print_each_ s.test_each_ s.save_each_
      s.lr_scale_each_ s.lr_scale_ num_step num_step 0 0 0 0 0 learning_rate).1
      = true
  · rw [if_pos h]
    exact ⟨fun _ => ⟨rfl, rfl⟩, fun hfalse => absurd hfalse (by simp)⟩
  · rw [if_neg h]
    exact ⟨fun htrue => absurd htrue (by simp), fun _ => ⟨rfl, rfl⟩⟩

/-- C2 witness: a completed sample run returns with both snapshot lists empty. -/
theorem train_teardown_witness :
    (sampleSolver.Train (some sampleModel) 1 1).1.weight_ = [] ∧
    (sampleSolver.Train (some sampleModel) 1 1).1.weight_prev_ = [] :=
  (train_teardown sampleSolver sampleModel 1 1).1 rfl

/-- C2 counterexample: a run aborted by a failed checkpoint save returns with
`weight_` still populated, so the lists are not cleared "regardless of outcome,
including a run aborted by a failed checkpoint save". -/
theorem train_teardown_counterexample :
    (sampleSolver.Train (some sampleModelBadSave) 1 1).1.weight_ ≠ [] := by
  have h : (sampleSolver.Train (some sampleModelBadSave) 1 1).1.weight_ =
      [sampleA] := rfl
  rw [h]
  exact List.cons_ne_nil _ _

/-- Stepping a cadence counter whose value at the top of the iteration is
`a % c`: the pre-incremented counter reaches the cadence exactly when
`(a + 1) % c = 0`, and otherwise becomes `(a + 1) % c`. -/
lemma counter_step (a c : ℕ) (hc : 1 ≤ c) :
    (c ≤ a % c + 1 ↔ (a + 1) % c = 0) ∧
    (¬ c ≤ a % c + 1 → (a + 1) % c = a % c + 1) := by
  have hlt : a % c < c := Nat.mod_lt _ hc
  rcases Nat.lt_or_ge 1 c with hc2 | hc1
  · have h1mod : 1 % c = 1 := Nat.mod_eq_of_lt hc2
    have key : (a + 1) % c = (a % c + 1) % c := by
      rw [Nat.add_mod, h1mod]
    refine ⟨⟨fun h => ?_, fun h => ?_⟩, fun h => ?_⟩
    · have he : a % c + 1 = c := by omega
      rw [key, he, Nat.mod_self]
    · by_contra hcon
      have hlt2 : a % c + 1 < c := by omega
      rw [key, Nat.mod_eq_of_lt hlt2] at h
      omega
    · have hlt2 : a % c + 1 < c := by omega
      rw [key, Nat.mod_eq_of_lt hlt2]
  · have hc0 : c = 1 := by omega
    subst hc0
    refine ⟨⟨fun _ => by omega, fun _ => by omega⟩, fun h => absurd (by omega) h⟩

/-- Unfolding lemma for `firesPrint`. -/
lemma firesPrint_def (tr : List Event) (j : ℕ) :
    firesPrint tr j ↔ ∃ e ∈ tr, isPrintFireAt j e := Iff.rfl

/-- Unfolding lemma for `firesTest`. -/
lemma firesTest_def (tr : List Event) (j : ℕ) :
    firesTest tr j ↔ ∃ e ∈ tr, isTestFireAt j e := Iff.rfl

/-- Unfolding lemma for `firesLr`. -/
lemma firesLr_def (tr : List Event) (j : ℕ) :
    firesLr tr j ↔ ∃ e ∈ tr, isLrFireAt j e := Iff.rfl

/-- Searching an empty trace. -/
lemma exists_mem_nil_event (P : Event → Prop) :
    (∃ e ∈ ([] : List Event), P e) ↔ False := by simp

/-- Searching a cons cell of a trace. -/
lemma exists_mem_cons_event (P : Event → Prop) (x : Event) (tr : List Event) :
    (∃ e ∈ x :: tr, P e) ↔ P x ∨ ∃ e ∈ tr, P e := by
  simp [List.mem_cons, or_and_right, exists_or]

/-- Searching the concatenation of two traces. -/
lemma exists_mem_append_event (P : Event → Prop) (t1 t2 : List Event) :
    (∃ e ∈ t1 ++ t2, P e) ↔ (∃ e ∈ t1, P e) ∨ (∃ e ∈ t2, P e) := by
  simp [List.mem_append, or_and_right, exists_or]

/-- Searching a singleton-or-empty conditional trace. -/
lemma exists_mem_ite_singleton (P : Event → Prop) (c : Prop) [Decidable c]
    (ev : Event) :
    (∃ e ∈ (if c then [ev] else ([] : List Event)), P e) ↔ c ∧ P ev := by
  split_ifs with h <;> simp [h]

/-- Combining the firing decision of the current step with the firing set of the
remaining steps. -/
lemma fire_set_step (num_step step j : ℕ) (C : ℕ → Prop) (this_cond : Prop)
    (hstep : step < num_step) (hthis : this_cond ↔ C step) :
    ((this_cond ∧ step + 1 = j) ∨
      (∃ k, step + 1 ≤ k ∧ k < num_step ∧ j = k + 1 ∧ C k)) ↔
    (∃ k, step ≤ k ∧ k < num_step ∧ j = k + 1 ∧ C k) := by
  constructor
  · rintro (⟨hc, rfl⟩ | ⟨k, hk1, hk2, rfl, hC⟩)
    · exact ⟨step, Nat.le_refl _, hstep, rfl, hthis.mp hc⟩
    · exact ⟨k, by omega, hk2, rfl, hC⟩
  · rintro ⟨k, hk1, hk2, rfl, hC⟩
    rcases Nat.eq_or_lt_of_le hk1 with rfl | hlt
    · exact Or.inl ⟨hthis.mpr hC, rfl⟩
    · exact Or.inr ⟨k, hlt, hk2, rfl, hC⟩

/-- Loop invariant of Solver::Train's step loop: starting at `step` with each
counter holding `step % cadence` and every save succeeding, the loop returns
true, and its trace holds print/test reports exactly for the 1-based steps `k+1`
with `step ≤ k < num_step` and `(k+1) % cadence = 0 ∨ k = num_step - 1`, and
learning-rate decays exactly for those with `(k+1) % lr_cadence = 0`. -/
lemma trainLoop_trace (m : Model) (pe te se le : ℕ) (ls : Dtype) (num_step : ℕ)
    (hpe : 1 ≤ pe) (hte : 1 ≤ te) (hse : 1 ≤ se) (hle : 1 ≤ le)
    (hsave : ∀ k, m.saveOkAt k = true) :
    ∀ fuel step lrate, step + fuel = num_step →
      (trainLoop m pe te se le ls num_step fuel step (step % pe) (step % te)
          (step % se) (step % le) lrate).1 = true ∧
      ∀ j : ℕ,
        (firesPrint (trainLoop m pe te se le ls num_step fuel step (step % pe)
            (step % te) (step % se) (step % le) lrate).2 j ↔
          ∃ k, step ≤ k ∧ k < num_step ∧ j = k + 1 ∧
            ((k + 1) % pe = 0 ∨ k = num_step - 1)) ∧
        (firesTest (trainLoop m pe te se le ls num_step fuel step (step % pe)
            (step % te) (step % se) (step % le) lrate).2 j ↔
          ∃ k, step ≤ k ∧ k < num_step ∧ j = k + 1 ∧
            ((k + 1) % te = 0 ∨ k = num_step - 1)) ∧
        (firesLr (trainLoop m pe te se le ls num_step fuel step (step % pe)
            (step % te) (step % se) (step % le) lrate).2 j ↔
          ∃ k, step ≤ k ∧ k < num_step ∧ j = k + 1 ∧
            (k + 1) % le = 0) := by
  intro fuel
  induction fuel with
  | zero =>
    intro step lrate hsum
    refine ⟨rfl, fun j => ⟨?_, ?_, ?_⟩⟩ <;>
    · constructor
      · rintro ⟨e, hmem, he⟩
        simp [trainLoop] at hmem
      · rintro ⟨k, hk1, hk2, _, _⟩
        omega
  | succ fuel ih =>
    intro step lrate hsum
    have hstep : step < num_step := by omega
    have hcond : ¬ ((se ≤ step % se + 1 ∨ step = num_step - 1) ∧
        m.saveOkAt step = false) := by
      simp [hsave step]
    rcases Nat.eq_zero_or_pos fuel with hf0 | hfpos
    · -- final iteration: the next call has no fuel left
      subst hf0
      have hlast : step = num_step - 1 := by omega
      have hpc : pe ≤ step % pe + 1 ∨ step = num_step - 1 := Or.inr hlast
      have htc : te ≤ step % te + 1 ∨ step = num_step - 1 := Or.inr hlast
      have hsc : se ≤ step % se + 1 ∨ step = num_step - 1 := Or.inr hlast
      simp only [trainLoop]
      rw [if_neg hcond, if_pos hpc, if_pos htc, if_pos hsc]
      refine ⟨rfl, fun j => ⟨?_, ?_, ?_⟩⟩
      · simp only [firesPrint_def, exists_mem_cons_event, exists_mem_append_event,
          exists_mem_ite_singleton, exists_mem_nil_event, isPrintFireAt,
          false_or, or_false, and_false, false_and, and_true, true_and]
        constructor
        · rintro rfl
          exact ⟨step, Nat.le_refl _, hstep, rfl, Or.inr hlast⟩
        · rintro ⟨k, hk1, hk2, rfl, _⟩
          omega
      · simp only [firesTest_def, exists_mem_cons_event, exists_mem_append_event,
          exists_mem_ite_singleton, exists_mem_nil_event, isTestFireAt,
          false_or, or_false, and_false, false_and, and_true, true_and]
        constructor
        · rintro rfl
          exact ⟨step, Nat.le_refl _, hstep, rfl, Or.inr hlast⟩
        · rintro ⟨k, hk1, hk2, rfl, _⟩
          omega
      · simp only [firesLr_def, exists_mem_cons_event, exists_mem_append_event,
          exists_mem_ite_singleton, exists_mem_nil_event, isLrFireAt,
          false_or, or_false, and_false, false_and, and_true, true_and]
        constructor
        · rintro ⟨hfired, rfl⟩
          exact ⟨step, Nat.le_refl _, hstep, rfl,
            (counter_step step le hle).1.mp hfired⟩
        · rintro ⟨k, hk1, hk2, rfl, hmod⟩
          have hk : k = step := by omega
          subst hk
          exact ⟨(counter_step k le hle).1.mpr hmod, rfl⟩
    · -- the loop continues after this iteration
      have hnotlast : step ≠ num_step - 1 := by omega
      have hprint1 : (if pe ≤ step % pe + 1 ∨ step = num_step - 1 then (0 : ℕ)
          else step % pe + 1) = (step + 1) % pe := by
        by_cases hc : pe ≤ step % pe + 1
        · rw [if_pos (Or.inl hc)]
          exact ((counter_step step pe hpe).1.mp hc).symm
        · rw [if_neg (by tauto)]
          exact ((counter_step step pe hpe).2 hc).symm
      have htest1 : (if te ≤ step % te + 1 ∨ step = num_step - 1 then (0 : ℕ)
          else step % te + 1) = (step + 1) % te := by
        by_cases hc : te ≤ step % te + 1
        · rw [if_pos (Or.inl hc)]
          exact ((counter_step step te hte).1.mp hc).symm
        · rw [if_neg (by tauto)]
          exact ((counter_step step te hte).2 hc).symm
      have hsave1 : (if se ≤ step % se + 1 ∨ step = num_step - 1 then (0 : ℕ)
          else step % se + 1) = (step + 1) % se := by
        by_cases hc : se ≤ step % se + 1
        · rw [if_pos (Or.inl hc)]
          exact ((counter_step step se hse).1.mp hc).symm
        · rw [if_neg (by tauto)]
          exact ((counter_step step se hse).2 hc).symm
      have hlr1 : (if le ≤ step % le + 1 then (0 : ℕ) else step % le + 1) =
          (step + 1) % le := by
        by_cases hc : le ≤ step % le + 1
        · rw [if_pos hc]
          exact ((counter_step step le hle).1.mp hc).symm
        · rw [if_neg hc]
          exact ((counter_step step le hle).2 hc).symm
      obtain ⟨hr1, hr2⟩ := ih (step + 1)
        (if le ≤ step % le + 1 then lrate * ls else lrate) (by omega)
      simp only [trainLoop]
      rw [if_neg hcond, hprint1, htest1, hsave1, hlr1]
      refine ⟨hr1, fun j => ⟨?_, ?_, ?_⟩⟩
      · have hrp := (hr2 j).1
        simp only [firesPrint_def, isPrintFireAt] at hrp
        simp only [firesPrint_def, exists_mem_cons_event, exists_mem_append_event,
          exists_mem_ite_singleton, exists_mem_nil_event, isPrintFireAt,
          false_or, or_false, and_false, false_and, and_true, true_and]
        rw [hrp, or_iff_left hnotlast]
        exact fire_set_step num_step step j _ _ hstep
          ⟨fun h => Or.inl ((counter_step step pe hpe).1.mp h),
           fun h => h.elim (fun hm => (counter_step step pe hpe).1.mpr hm)
             (fun he => absurd he hnotlast)⟩
      · have hrt := (hr2 j).2.1
        simp only [firesTest_def, isTestFireAt] at hrt
        simp only [firesTest_def, exists_mem_cons_event, exists_mem_append_event,
          exists_mem_ite_singleton, exists_mem_nil_event, isTestFireAt,
          false_or, or_false, and_false, false_and, and_true, true_and]
        rw [hrt, or_iff_left hnotlast]
        exact fire_set_step num_step step j _ _ hstep
          ⟨fun h => Or.inl ((counter_step step te hte).1.mp h),
           fun h => h.elim (fun hm => (counter_step step te hte).1.mpr hm)
             (fun he => absurd he hnotlast)⟩
      · have hrl := (hr2 j).2.2
        simp only [firesLr_def, isLrFireAt] at hrl
        simp only [firesLr_def, exists_mem_cons_event, exists_mem_append_event,
          exists_mem_ite_singleton, exists_mem_nil_event, isLrFireAt,
          false_or, or_false, and_false, false_and, and_true, true_and]
        rw [hrl]
        exact fire_set_step num_step step j _ _ hstep
          (counter_step step le hle).1

/-- C1 (amended): in a Train run with a non-null model, `num_steps ≥ 1`, all four
cadences ≥ 1, and every checkpoint save succeeding (the run is not aborted),
print and test fire exactly at the step indices k with `(k+1) % cadence = 0` or
`k = num_steps - 1` (each counter resetting on fire), and the learning-rate
decay fires exactly at the indices with `(k+1) % lr_cadence = 0`, with no
final-step exception; a fire at index k is recorded with 1-based number `k+1`. -/
theorem train_fire_schedule (s : Solver) (m : Model) (num_step : ℕ)
    (lrate : Dtype) (hns : 1 ≤ num_step) (hpe : 1 ≤ s.print_each_)
    (hte : 1 ≤ s.test_each_) (hse : 1 ≤ s.save_each_)
    (hle : 1 ≤ s.lr_scale_each_) (hsave : ∀ k, m.saveOkAt k = true) (j : ℕ) :
    (firesPrint (s.Train (some m) num_step lrate).2.2 j ↔
      ∃ k, k < num_step ∧ j = k + 1 ∧
        ((k + 1) % s.print_each_ = 0 ∨ k = num_step - 1)) ∧
    (firesTest (s.Train (some m) num_step lrate).2.2 j ↔
      ∃ k, k < num_step ∧ j = k + 1 ∧
        ((k + 1) % s.test_each_ = 0 ∨ k = num_step - 1)) ∧
    (firesLr (s.Train (some m) num_step lrate).2.2 j ↔
      ∃ k, k < num_step ∧ j = k + 1 ∧ (k + 1) % s.lr_scale_each_ = 0) := by
  obtain ⟨h1, h2⟩ := trainLoop_trace m s.print_each_ s.test_each_ s.save_each_
    s.lr_scale_each_ s.lr_scale_ num_step hpe hte hse hle hsave num_step 0 lrate
    (by omega)
  simp only [Nat.zero_mod] at h1 h2
  have htr : (s.Train (some m) num_step lrate).2.2 =
      (trainLoop m s.print_each_ s.test_each_ s.save_each_ s.lr_scale_each_
        s.lr_scale_ num_step num_step 0 0 0 0 0 lrate).2 := by
    unfold Solver.Train
    dsimp only
    rw [if_pos h1]
  rw [htr]
  obtain ⟨hp, ht, hl⟩ := h2 j
  simp only [Nat.zero_le, true_and] at hp ht hl
  exact ⟨hp, ht, hl⟩

/-- C1 witness: in a 2-step sample run with all cadences 1, the schedule theorem
yields a print report for 1-based step 1. -/
theorem train_fire_schedule_witness :
    firesPrint (sampleSolver.Train (some sampleModel) 2 1).2.2 1 :=
  ((train_fire_schedule sampleSolver sampleModel 2 1 (by decide) (by decide)
      (by decide) (by decide) (by decide) (fun k => rfl) 1).1).mpr
    ⟨0, by decide, rfl, Or.inl (by decide)⟩

/-- C1 counterexample: with every cadence 1 and a save that fails at the first
step, the run aborts before the learning-rate block, so no decay fires at step
index 0 even though `(0+1) % 1 = 0` — the claimed schedule fails for runs
aborted by a failed checkpoint save. -/
theorem train_fire_schedule_counterexample :
    1 % 1 = 0 ∧
    ¬ firesLr (sampleSolver.Train (some sampleModelBadSave) 1 1).2.2 1 := by
  refine ⟨rfl, ?_⟩
  rintro ⟨e, hmem, he⟩
  have h : (sampleSolver.Train (some sampleModelBadSave) 1 1).2.2 =
      [Event.trainCall 0 (1/2), Event.learnCall 0 1,
        Event.printFire 1 1 (1/2), Event.testFire 1 1,
        Event.saveFire 1 (saveFileName sampleModelBadSave 0)] := rfl
  rw [h] at hmem
  simp only [List.mem_cons, List.not_mem_nil, or_false] at hmem
  rcases hmem with rfl | rfl | rfl | rfl | rfl <;> exact he

end jik
